import Mathlib

/-!
Shallow embedding of `src/internal/discovery/discovery.go` (package
`discovery` of nri-flex): container discovery and dynamic config synthesis.

Go strings are modelled as `List Char`; Go maps (`map[string]string`,
`map[string]map[string]interface{}`) as association lists with
insert-or-replace semantics; Go panics (failed interface conversions,
out-of-range slicing) as `Except GoPanic`; goroutine fan-outs are
sequentialized in spawn order.  External collaborators (docker client,
template store, `processor.ReadYML`, shell/exec fallbacks, the `load`
package globals) live in explicit environment records, since their code is
outside this repository's source.
-/

namespace NriFlex

/-- Go `string`, as its list of characters. -/
abbrev Str := List Char

/-- Convert a Lean string literal to the `Str` model. -/
def str (s : String) : Str := s.toList

/-- Predicate `isPfx p s` : whether `p` is a prefix of `s` (Go `strings.HasPrefix s p`). -/
def isPfx : Str → Str → Bool
  | [], _ => true
  | _ :: _, [] => false
  | a :: as, b :: bs => a = b && isPfx as bs

/-- Predicate `containsB s sub` : Go `strings.Contains(s, sub)`. -/
def containsB : Str → Str → Bool
  | [], sub => sub.isEmpty
  | c :: tl, sub => isPfx sub (c :: tl) || containsB tl sub

/-- Worker for `replaceAll`, structurally recursive on a fuel bound (any
fuel at least the string length gives the untruncated result); used so
that the function evaluates by kernel reduction. -/
def replaceAllGo (pat rep : Str) : Nat → Str → Str
  | _, [] => []
  | 0, s => s
  | fuel + 1, c :: cs =>
    if isPfx pat (c :: cs) = true ∧ pat ≠ [] then
      rep ++ replaceAllGo pat rep fuel (List.drop (pat.length - 1) cs)
    else
      c :: replaceAllGo pat rep fuel cs

/-- Go `strings.Replace(s, pat, rep, -1)`: replace all non-overlapping
occurrences of `pat`, scanning left to right.  All patterns used by the
source are non-empty. -/
def replaceAll (pat rep : Str) (s : Str) : Str :=
  replaceAllGo pat rep s.length s

/-- Go `strings.TrimPrefix(s, p)`. -/
def trimLead (p s : Str) : Str :=
  if isPfx p s then s.drop p.length else s

/-- Go `strings.Split(s, sep)` for a single-character separator. -/
def splitOnChar (c : Char) : Str → List Str
  | [] => [[]]
  | x :: xs =>
    if x = c then [] :: splitOnChar c xs
    else
      match splitOnChar c xs with
      | [] => [[x]]
      | y :: ys => (x :: y) :: ys

/-- Go `strings.SplitN(s, sep, 2)` for a single-character separator:
`some (before, after)` at the first occurrence, `none` if absent. -/
def splitFirst (c : Char) : Str → Option (Str × Str)
  | [] => none
  | x :: xs =>
    if x = c then some ([], xs)
    else
      match splitFirst c xs with
      | none => none
      | some (a, b) => some (x :: a, b)

/-- Go `fmt.Sprintf("%v", n)` for an unsigned integer. -/
def natToStr (n : Nat) : Str := (toString n).toList

/-- Association-list lookup, modelling Go map indexing (absent key gives
the zero value, here `none`). -/
def mapGet {α : Type} : List (Str × α) → Str → Option α
  | [], _ => none
  | (k, v) :: tl, q => if k = q then some v else mapGet tl q

/-- Association-list insert-or-replace, modelling Go map assignment. -/
def mapSet {α : Type} : List (Str × α) → Str → α → List (Str × α)
  | [], q, v => [(q, v)]
  | (k, w) :: tl, q, v => if k = q then (q, v) :: tl else (k, w) :: mapSet tl q v

/-- Map lookup with a default. -/
def mapGetD {α : Type} (m : List (Str × α)) (q : Str) (d : α) : α :=
  (mapGet m q).getD d

/-! ## Data model (docker API types, as observed by discovery.go) -/

/-- One element of `types.Container.Ports` (`types.Port`): `IP`,
`PrivatePort`, `PublicPort`. -/
structure PortMapping where
  ip : Str
  privatePort : Nat
  publicPort : Nat
deriving DecidableEq

/-- Snapshot `types.Container`: the snapshot returned by `ContainerList`.
`networks` is the sequence of `NetworkSettings.Networks[*].IPAddress`
values in iteration order. -/
structure Container where
  id : Str
  names : List Str
  image : Str
  labels : List (Str × Str)
  networks : List Str
  ports : List PortMapping
deriving DecidableEq

/-- Inspection config `types.ContainerJSON.Config`: labels, `Env` entries (raw
`KEY=VALUE` strings), and the exposed-port set (each entry is the value
of `port.Port()` for one key of `Config.ExposedPorts`, in iteration
order). -/
structure ContainerConfig where
  labels : List (Str × Str)
  env : List Str
  exposedPorts : List Str
deriving DecidableEq

/-- Inspection `types.ContainerJSON` (container inspect result): id, `State.Pid`,
and the possibly-nil `Config`. -/
structure ContainerJSON where
  id : Str
  pid : Nat
  config : Option ContainerConfig
deriving DecidableEq

/-- Document `load.Config`: a loaded flex config document.  Only the fields
discovery.go reads or writes are modelled. -/
structure Config where
  fileName : Str
  customAttributes : Option (List (Str × Str))
deriving DecidableEq

/-- A Go runtime panic (failed interface conversion / slice bounds). -/
inductive GoPanic where
  | interfaceConversion
  | sliceBounds
deriving DecidableEq

deriving instance DecidableEq for Except

/-- The inner field map of one directive:
`(*discoveryConfigs)[key]`.  Every value the source ever stores there is
a `string`, so the `interface{}` values are modelled as `Str`; a failed
`.(string)` assertion on an absent (nil) entry is a `GoPanic`. -/
abbrev FieldMap := List (Str × Str)

/-- Map `discoveryConfigs : map[string]map[string]interface{}`. -/
abbrev DCMap := List (Str × FieldMap)

/-- Lookup of `(*discoveryConfigs)[key][f]`; an absent outer key reads as
the nil map, whose indexing yields nil (`none`). -/
def dget (dcs : DCMap) (key f : Str) : Option Str :=
  mapGet (mapGetD dcs key []) f

/-- Write `(*discoveryConfigs)[key][f] = v`. -/
def dsetField (dcs : DCMap) (key f : Str) (v : Str) : DCMap :=
  mapSet dcs key (mapSet (mapGetD dcs key []) f v)

/-- Go `x.(string)` on a possibly-nil interface value. -/
def asString : Option Str → Except GoPanic Str
  | some s => Except.ok s
  | none => Except.error GoPanic.interfaceConversion

/-! ## Globals of the `load` package

The `load` package is not part of this repository slice; the constants
below are modelled from the spec (directive field values `cname`/`img`,
ip modes `private`/`public`, the `flexDiscovery` marker and the
orchestrator label keys of section 6 of the spec). -/

/-- Modelled from the spec: `load.Private`. -/
def loadPrivate : Str := str "private"

/-- Modelled from the spec: `load.Public`. -/
def loadPublic : Str := str "public"

/-- Modelled from the spec: `load.Img`, the image target-type marker. -/
def loadImg : Str := str "img"

/-- The discovery marker substring looked for in annotation keys. -/
def flexMarker : Str := str "flexDiscovery"

/-- Orchestrator container-name label key. -/
def kubeNameKey : Str := str "io.kubernetes.container.name"

/-- Orchestrator container-ports label key. -/
def kubePortsKey : Str := str "annotation.io.kubernetes.container.ports"

/-- Template placeholder `${auto:host}`. -/
def hostTok : Str := str "$\x7bauto:host\x7d"

/-- Template placeholder `${auto:ip}`. -/
def ipTok : Str := str "$\x7bauto:ip\x7d"

/-- Template placeholder `${auto:port}`. -/
def portTok : Str := str "$\x7bauto:port\x7d"

/-- Mutable/global state of the `load` package read by discovery.go:
`load.ContainerID`, `load.DefaultIPMode`, `load.Args.OverrideIPMode`,
`load.IntegrationName`, `load.IntegrationNameShort`. -/
structure LoadState where
  containerID : Str
  defaultIPMode : Str
  overrideIPMode : Str
  integrationName : Str
  integrationNameShort : Str
deriving DecidableEq

/-- External collaborators, as oracle functions.
`client`/`containerList` model `setDockerClient` and `ContainerList`
(`none` = error); `inspect` models `ContainerInspect` (`none` = error);
`readFile` models `ioutil.ReadFile path` (`none` = error); `parseYML`
models `processor.ReadYML` (`none` = parse error); `unmarshalPorts`
models `json.Unmarshal` of the orchestrator ports label into an array:
`none` = unmarshal error, and each element is `none` when it is not a
JSON object (Go panics on the `.(map[string]interface{})` assertion),
`some none` for an object without `containerPort`, and `some (some s)`
for an object whose `containerPort` prints as `s`; `lowLevelIP pid` is
the already-regex-validated IPv4 of the proc-file pipeline (`none` =
command error/timeout/invalid output) and `hostnameIP id` likewise for
`hostname -i` run inside the container. -/
structure DiscoveryEnv where
  client : Option Unit
  containerList : Option (List Container)
  inspect : Str → Option ContainerJSON
  readFile : Str → Option Str
  parseYML : Str → Option Config
  unmarshalPorts : Str → Option (List (Option (Option Str)))
  lowLevelIP : Nat → Option Str
  hostnameIP : Str → Option Str

/-- Modelled from the spec: `formatter.KvFinder(mode, subject, target)` —
the generic key/value matching utility (external collaborator); supported
modes include substring containment (`contains`) and exact equality. -/
def kvFinder (mode subject target : Str) : Bool :=
  if mode = str "contains" then containsB subject target else subject = target

/-- One recorded invocation of `formatter.KvFinder` (mode, subject,
target), used to observe whether a name/image comparison was attempted. -/
structure KvCall where
  mode : Str
  subject : Str
  target : Str
deriving DecidableEq

/-- One recorded `ContainerInspect` runtime call, annotated with whether
the requested id was already present in the per-pass inspection cache at
the moment of the call. -/
structure InspectCall where
  id : Str
  inCache : Bool
deriving DecidableEq

/-! ## parseFlexDiscoveryLabel -/

/-- Body of `parseFlexDiscoveryLabel` acting on the inner map
`(*discoveryConfigs)[key]`: pair-list encoding if the value contains
`=`, else dotted encoding if it contains `.`, else nothing. -/
def parseVal (m : FieldMap) (val : Str) : FieldMap :=
  if containsB val (str "=") then
    (splitOnChar ',' val).foldl
      (fun m seg =>
        match splitOnChar '=' seg with
        | [k, v] => mapSet m k v
        | _ => m) m
  else if containsB val (str ".") then
    (splitOnChar '.' val).foldl
      (fun m seg =>
        match splitOnChar '_' seg with
        | [k, v] => mapSet m k v
        | _ => m) m
  else m

/-- Function `parseFlexDiscoveryLabel(discoveryConfigs, key, val)`. -/
def parseFlexDiscoveryLabel (dcs : DCMap) (key val : Str) : DCMap :=
  mapSet dcs key (parseVal (mapGetD dcs key []) val)

/-! ## findContainerTarget -/

/-- The orchestrator-label fallback loop inside the `cname` branch of
`findContainerTarget`.  NOTE (faithful to the source): the inner loop
variable `key` shadows the directive key, so the directive fields are
looked up under the label key `io.kubernetes.container.name` itself.
Returns recorded KvFinder calls plus either a panic or `some claimSet'`
on a match (`return true`), `none` when the loop falls through. -/
def fctLabelLoop (dcs : DCMap) (cid : Str) (found : List Str) :
    List (Str × Str) → List KvCall × Except GoPanic (Option (List Str))
  | [] => ([], Except.ok none)
  | (k, v) :: rest =>
    if k = kubeNameKey then
      match asString (dget dcs k (str "tm")) with
      | Except.error e => ([], Except.error e)
      | Except.ok tmv =>
        match asString (dget dcs k (str "t")) with
        | Except.error e => ([], Except.error e)
        | Except.ok tv =>
          if kvFinder tmv v tv then
            ([⟨tmv, v, tv⟩], Except.ok (some (found ++ [cid])))
          else
            let (calls, r) := fctLabelLoop dcs cid found rest
            (⟨tmv, v, tv⟩ :: calls, r)
    else fctLabelLoop dcs cid found rest

/-- The `case "cname"` loop of `findContainerTarget` over the container's
names; each iteration first compares the stripped name, then runs the
label-fallback loop.  The `.(string)` assertions on `tm` and `t` are
evaluated (in Go argument order) before `KvFinder` is entered. -/
def fctNamesLoop (dcs : DCMap) (key : Str) (c : Container) (found : List Str) :
    List Str → List KvCall × Except GoPanic (Bool × List Str)
  | [] => ([], Except.ok (false, found))
  | n :: rest =>
    let n' := trimLead (str "/") n
    match asString (dget dcs key (str "tm")) with
    | Except.error e => ([], Except.error e)
    | Except.ok tmv =>
      match asString (dget dcs key (str "t")) with
      | Except.error e => ([], Except.error e)
      | Except.ok tv =>
        if kvFinder tmv n' tv then
          ([⟨tmv, n', tv⟩], Except.ok (true, found ++ [c.id]))
        else
          match fctLabelLoop dcs c.id found c.labels with
          | (calls, Except.error e) => (⟨tmv, n', tv⟩ :: calls, Except.error e)
          | (calls, Except.ok (some found')) =>
              (⟨tmv, n', tv⟩ :: calls, Except.ok (true, found'))
          | (calls, Except.ok none) =>
              let (calls', r) := fctNamesLoop dcs key c found rest
              (⟨tmv, n', tv⟩ :: calls ++ calls', r)

/-- Function `findContainerTarget(discoveryConfigs, container, key,
foundTargetContainerIds)`: first the Claim-Set check, then the dispatch
on the directive's target type.  Returns the recorded KvFinder calls and
either a panic or `(matched, claimSet')`. -/
def findContainerTarget (dcs : DCMap) (c : Container) (key : Str)
    (found : List Str) : List KvCall × Except GoPanic (Bool × List Str) :=
  if found.any (fun id => id = c.id) then
    ([], Except.ok (false, found))
  else
    match mapGet (mapGetD dcs key []) (str "tt") with
    | none => ([], Except.ok (false, found))
    | some tt =>
      if tt = str "cname" then
        fctNamesLoop dcs key c found c.names
      else if tt = loadImg then
        match asString (dget dcs key (str "tm")) with
        | Except.error e => ([], Except.error e)
        | Except.ok tmv =>
          match asString (dget dcs key (str "t")) with
          | Except.error e => ([], Except.error e)
          | Except.ok tv =>
            if kvFinder tmv c.image tv then
              ([⟨tmv, c.image, tv⟩], Except.ok (true, found ++ [c.id]))
            else
              ([⟨tmv, c.image, tv⟩], Except.ok (false, found))
      else ([], Except.ok (false, found))

/-! ## addDynamicConfig and the coordinate fallback chain -/

/-- Function `lowLevelIpv4Fetch(&discoveryIPAddress, pid)`: only attempted while
the IP is still empty; the oracle already folds in command failure,
timeout and the IPv4 regex validation. -/
def lowLevelIpv4Fetch (env : DiscoveryEnv) (ip : Str) (pid : Nat) : Str :=
  if ip = [] then
    match env.lowLevelIP pid with
    | some v => v
    | none => ip
  else ip

/-- Function `execHostnameFallback(&discoveryIPAddress, containerID)`: only
attempted while the IP is still empty; the oracle folds in exec failure
and the IPv4 validation. -/
def execHostnameFallback (env : DiscoveryEnv) (ip : Str) (cid : Str) : Str :=
  if ip = [] then
    match env.hostnameIP cid with
    | some v => v
    | none => ip
  else ip

/-- The loop over the elements of the unmarshalled orchestrator ports
array: a non-object element panics at the `.(map[string]interface{})`
assertion; the first object carrying `containerPort` sets the port,
substitutes the placeholder and breaks. -/
def kubeEntriesLoop : List (Option (Option Str)) → Str → Str →
    Except GoPanic (Str × Str)
  | [], yml, port => Except.ok (yml, port)
  | none :: _, _, _ => Except.error GoPanic.interfaceConversion
  | some none :: rest, yml, port => kubeEntriesLoop rest yml port
  | some (some p) :: _, yml, _ => Except.ok (replaceAll portTok p yml, p)

/-- The kubernetes port fallback: scan the target container's labels for
`annotation.io.kubernetes.container.ports` and run the entries loop on
each match (Go label maps have unique keys, so at most one matches). -/
def kubePortLoop (env : DiscoveryEnv) : List (Str × Str) → Str → Str →
    Except GoPanic (Str × Str)
  | [], yml, port => Except.ok (yml, port)
  | (k, v) :: rest, yml, port =>
    if k = kubePortsKey then
      match env.unmarshalPorts v with
      | none => kubePortLoop env rest yml port
      | some entries =>
        match kubeEntriesLoop entries yml port with
        | Except.error e => Except.error e
        | Except.ok (yml', port') => kubePortLoop env rest yml' port'
    else kubePortLoop env rest yml port

/-- The secondary inspect fallback: take the first exposed port, strip
the protocol suffix, substitute. -/
def exposedPortFallback (insp : ContainerJSON) (yml port : Str) : Str × Str :=
  if port = [] then
    match insp.config with
    | none => (yml, port)
    | some cfg =>
      match cfg.exposedPorts with
      | [] => (yml, port)
      | ep :: _ =>
        let p := (splitOnChar '/' ep).headD []
        (replaceAll portTok p yml, p)
  else (yml, port)

/-- One synthesized configuration, paired with the substituted template
text it was parsed from (the text is recorded so that emission
invariants can be stated). -/
structure Emission where
  text : Str
  cfg : Config
deriving DecidableEq

/-- The decoration step of `addDynamicConfig` (lines 401–410): ensure the
custom-attribute map, merge the target's labels, then set `containerID`,
`image` and `IDShort = ID[0:12]`; the slice panics when the id is
shorter than 12 characters. -/
def decorateConfig (tc : Container) (cfg : Config) : Except GoPanic Config :=
  let attrs0 := cfg.customAttributes.getD []
  let attrs1 := tc.labels.foldl (fun m kv => mapSet m kv.1 kv.2) attrs0
  let attrs2 := mapSet attrs1 (str "containerID") tc.id
  let attrs3 := mapSet attrs2 (str "image") tc.image
  if 12 ≤ tc.id.length then
    Except.ok { cfg with
      customAttributes := some (mapSet attrs3 (str "IDShort") (tc.id.take 12)) }
  else Except.error GoPanic.sliceBounds

/-- Lines 354–358: substitute the resolved IP into the `host`/`ip`
placeholders, only when an IP was resolved. -/
def substHostIP (ip b : Str) : Str :=
  if ip ≠ [] then replaceAll ipTok ip (replaceAll hostTok ip b) else b

/-- Lines 360–390: substitute the resolved port if present, otherwise
run the kubernetes-label fallback and then the exposed-port fallback. -/
def portPhase (env : DiscoveryEnv) (insp : ContainerJSON)
    (labels : List (Str × Str)) (port yml : Str) :
    Except GoPanic (Str × Str) :=
  if port ≠ [] then Except.ok (replaceAll portTok port yml, port)
  else
    match kubePortLoop env labels yml [] with
    | Except.error e => Except.error e
    | Except.ok (yml2, port2) => Except.ok (exposedPortFallback insp yml2 port2)

/-- Lines 392–412: the unresolved-placeholder guard, template parse and
decoration. -/
def adcFinish (env : DiscoveryEnv) (tc : Container) (yml3 : Str) :
    Except GoPanic (List Emission) :=
  if containsB yml3 hostTok ∨ containsB yml3 ipTok ∨ containsB yml3 portTok then
    Except.ok []
  else
    match env.parseYML yml3 with
    | none => Except.ok []
    | some cfg =>
      match decorateConfig tc cfg with
      | Except.error e => Except.error e
      | Except.ok cfg' => Except.ok [⟨yml3, cfg'⟩]

/-- The body of `addDynamicConfig` for a single `containerYml`
(lines 293–418): config-name match, template read, coordinate
resolution, placeholder substitution, the unresolved-placeholder guard,
parse and decoration.  Yields the (zero or one) emissions. -/
def adcOne (env : DiscoveryEnv) (ls : LoadState) (dcs : DCMap) (key : Str)
    (tc : Container) (insp : ContainerJSON) (path : Str) (cy : Config) :
    Except GoPanic (List Emission) :=
  let configName :=
    match dget dcs key (str "c") with
    | some c => c ++ str ".yml"
    | none => []
  if cy.fileName = configName then
    match env.readFile (path ++ cy.fileName) with
    | none => Except.ok []
    | some b =>
      let networkIPAddress := tc.networks.headD []
      -- ability to override and select port
      let (discoveryPort0, publicIPAddress, publicPort, privatePort) :=
        match dget dcs key (str "p") with
        | some p => (p, [], [], [])
        | none =>
          match tc.ports with
          | [] => ([], [], [], [])
          | pm :: _ => ([], pm.ip, natToStr pm.publicPort, natToStr pm.privatePort)
      let ipMode :=
        if ls.overrideIPMode ≠ [] ∧
            (ls.overrideIPMode = loadPublic ∨ ls.overrideIPMode = loadPrivate) then
          ls.overrideIPMode
        else
          match dget dcs key (str "ip") with
          | some v => if v = loadPrivate ∨ v = loadPublic then v else ls.defaultIPMode
          | none => ls.defaultIPMode
      let ip0 :=
        if ipMode = loadPublic then publicIPAddress
        else if ipMode = loadPrivate then networkIPAddress
        else []
      let port0 :=
        if ipMode = loadPublic then publicPort
        else if ipMode = loadPrivate then privatePort
        else discoveryPort0
      let ip1 := lowLevelIpv4Fetch env ip0 insp.pid
      let ip2 := execHostnameFallback env ip1 tc.id
      match portPhase env insp tc.labels port0 (substHostIP ip2 b) with
      | Except.error e => Except.error e
      | Except.ok (yml3, _) => adcFinish env tc yml3
  else Except.ok []

/-- Function `addDynamicConfig(containerYmls, discoveryConfigs, ymls,
targetContainer, targetContainerInspect, key, path)`: the loop over all
loaded container ymls; returns every emission appended to `*ymls`. -/
def addDynamicConfig (env : DiscoveryEnv) (ls : LoadState) (cys : List Config)
    (dcs : DCMap) (tc : Container) (insp : ContainerJSON) (key path : Str) :
    Except GoPanic (List Emission) :=
  match cys with
  | [] => Except.ok []
  | cy :: rest =>
    match adcOne env ls dcs key tc insp path cy with
    | Except.error e => Except.error e
    | Except.ok ems =>
      match addDynamicConfig env ls rest dcs tc insp key path with
      | Except.error e => Except.error e
      | Except.ok ems' => Except.ok (ems ++ ems')

/-! ## findFlexContainerID

The goroutine fan-out is sequentialized in spawn (container enumeration)
order; each unit of work runs its three fallback checks for its own
container against the shared `load.ContainerID`. -/

/-- One container's unit of work inside `findFlexContainerID`:
image-name check, then (if the id is still empty) stripped container
names, then (if still empty) the orchestrator container-name label. -/
def ffcStep (ls : LoadState) (cid : Str) (c : Container) : Str :=
  let cid :=
    if containsB c.image ls.integrationName ∧ cid = [] then c.id else cid
  let cid :=
    if cid = [] ∧
        c.names.any (fun n => containsB (trimLead (str "/") n) ls.integrationNameShort)
    then c.id else cid
  let cid :=
    if cid = [] ∧
        c.labels.any (fun kv => kv.1 = kubeNameKey ∧ containsB kv.2 ls.integrationNameShort)
    then c.id else cid
  cid

/-- Function `findFlexContainerID(&containers)`: runs only when
`load.ContainerID` is empty; returns the (possibly updated) id. -/
def findFlexContainerID (ls : LoadState) (containers : List Container) : Str :=
  if ls.containerID = [] then
    containers.foldl (ffcStep ls) []
  else ls.containerID

/-! ## runReverseLookup (flex envs/labels -> container) -/

/-- Shared mutable state threaded through the reverse lookup:
`discoveryConfigs`, the inspection cache, the Claim Set and the
emissions appended to `*ymls`. -/
structure RevState where
  dcs : DCMap
  cache : List ContainerJSON
  found : List Str
  ems : List Emission
deriving DecidableEq

/-- Per-key body of the reverse lookup (lines 253–281), for one
candidate container and one `flexDiscovery` entry of the flex
container's discovery loop: reset and re-parse the directive, apply
defaults when a target is present, then (unconditionally, without
consulting the cache) inspect the candidate and, on inspect success, run
the target matcher and possibly `addDynamicConfig`. -/
def reverseProcessKey (env : DiscoveryEnv) (ls : LoadState) (cys : List Config)
    (path : Str) (c : Container) (key val : Str) (s : RevState) :
    List InspectCall × List KvCall × Except GoPanic RevState :=
  let dcs1 := mapSet s.dcs key []
  let dcs2 := parseFlexDiscoveryLabel dcs1 key val
  let dcs3 :=
    match dget dcs2 key (str "t") with
    | none => dcs2
    | some t =>
      let d1 := if dget dcs2 key (str "c") = none then dsetField dcs2 key (str "c") t else dcs2
      let d2 := if dget d1 key (str "tt") = none then dsetField d1 key (str "tt") loadImg else d1
      if dget d2 key (str "tm") = none then dsetField d2 key (str "tm") (str "contains") else d2
  let call : InspectCall := ⟨c.id, s.cache.any (fun i => i.id = c.id)⟩
  match env.inspect c.id with
  | none => ([call], [], Except.ok { s with dcs := dcs3 })
  | some insp =>
    match findContainerTarget dcs3 c key s.found with
    | (kv, Except.error e) => ([call], kv, Except.error e)
    | (kv, Except.ok (true, found')) =>
      match addDynamicConfig env ls cys dcs3 c insp key path with
      | Except.error e => ([call], kv, Except.error e)
      | Except.ok ems' =>
        ([call], kv, Except.ok ⟨dcs3, s.cache ++ [insp], found', s.ems ++ ems'⟩)
    | (kv, Except.ok (false, _)) => ([call], kv, Except.ok { s with dcs := dcs3 })

/-- The key loop of one reverse-lookup goroutine: every discovery-loop
entry whose key contains the `flexDiscovery` marker is processed. -/
def reverseKeysLoop (env : DiscoveryEnv) (ls : LoadState) (cys : List Config)
    (path : Str) (c : Container) :
    List (Str × Str) → RevState → List InspectCall × List KvCall × Except GoPanic RevState
  | [], s => ([], [], Except.ok s)
  | (key, val) :: rest, s =>
    if containsB key flexMarker then
      match reverseProcessKey env ls cys path c key val s with
      | (ic, kv, Except.error e) => (ic, kv, Except.error e)
      | (ic, kv, Except.ok s') =>
        match reverseKeysLoop env ls cys path c rest s' with
        | (ic', kv', r) => (ic ++ ic', kv ++ kv', r)
    else reverseKeysLoop env ls cys path c rest s

/-- The container fan-out of the reverse lookup, sequentialized in spawn
order; the flex container itself is skipped. -/
def reverseContainersLoop (env : DiscoveryEnv) (ls : LoadState) (cys : List Config)
    (path : Str) (dl : List (Str × Str)) :
    List Container → RevState → List InspectCall × List KvCall × Except GoPanic RevState
  | [], s => ([], [], Except.ok s)
  | c :: rest, s =>
    if c.id ≠ ls.containerID then
      match reverseKeysLoop env ls cys path c dl s with
      | (ic, kv, Except.error e) => (ic, kv, Except.error e)
      | (ic, kv, Except.ok s') =>
        match reverseContainersLoop env ls cys path dl rest s' with
        | (ic', kv', r) => (ic ++ ic', kv ++ kv', r)
    else reverseContainersLoop env ls cys path dl rest s

/-- Merge of labels and `KEY=VALUE` environment entries into a discovery
loop map (labels first, then env, last write wins). -/
def mergeDiscoveryLoop (cfg : ContainerConfig) : List (Str × Str) :=
  let dl := cfg.labels.foldl (fun m kv => mapSet m kv.1 kv.2) []
  cfg.env.foldl
    (fun m e =>
      match splitFirst '=' e with
      | some (k, v) => mapSet m k v
      | none => m) dl

/-- Function `runReverseLookup`: inspect the flex container (when its id is
known), build its discovery loop, then fan out over all containers. -/
def runReverseLookup (env : DiscoveryEnv) (ls : LoadState) (cys : List Config)
    (path : Str) (containers : List Container) (cache : List ContainerJSON)
    (found : List Str) :
    List InspectCall × List KvCall × Except GoPanic RevState :=
  let (cache1, dl, preCalls) :=
    if ls.containerID ≠ [] then
      let call : InspectCall := ⟨ls.containerID, cache.any (fun i => i.id = ls.containerID)⟩
      match env.inspect ls.containerID with
      | none => (cache, [], [call])
      | some fi =>
        match fi.config with
        | none => (cache, [], [call])
        | some cfg => (cache ++ [fi], mergeDiscoveryLoop cfg, [call])
    else (cache, [], [])
  if dl ≠ [] then
    match reverseContainersLoop env ls cys path dl containers ⟨[], cache1, found, []⟩ with
    | (ic, kv, r) => (preCalls ++ ic, kv, r)
  else (preCalls, [], Except.ok ⟨[], cache1, found, []⟩)

/-! ## runForwardLookup (container envs/labels -> flex) -/

/-- Shared mutable state of the forward lookup: `discoveryConfigs`, the
inspection cache, the (read-only here) Claim Set and the emissions. -/
structure FwdState where
  dcs : DCMap
  cache : List ContainerJSON
  found : List Str
  ems : List Emission
deriving DecidableEq

/-- Per-key body of the forward lookup (lines 176–204): reset and
re-parse the directive; only when a target is present apply the defaults
(including `r = "false"`) and run `addDynamicConfig` against the current
container.  The forward direction never invokes the target matcher, so
no KvFinder call is ever recorded. -/
def forwardProcessKey (env : DiscoveryEnv) (ls : LoadState) (cys : List Config)
    (path : Str) (c : Container) (insp : ContainerJSON) (key val : Str)
    (dcs : DCMap) (ems : List Emission) :
    List KvCall × Except GoPanic (DCMap × List Emission) :=
  let dcs1 := mapSet dcs key []
  let dcs2 := parseFlexDiscoveryLabel dcs1 key val
  match dget dcs2 key (str "t") with
  | none => ([], Except.ok (dcs2, ems))
  | some t =>
    let d1 := if dget dcs2 key (str "c") = none then dsetField dcs2 key (str "c") t else dcs2
    let d2 := if dget d1 key (str "r") = none then dsetField d1 key (str "r") (str "false") else d1
    let d3 := if dget d2 key (str "tt") = none then dsetField d2 key (str "tt") loadImg else d2
    let d4 := if dget d3 key (str "tm") = none then dsetField d3 key (str "tm") (str "contains") else d3
    match addDynamicConfig env ls cys d4 c insp key path with
    | Except.error e => ([], Except.error e)
    | Except.ok ems' => ([], Except.ok (d4, ems ++ ems'))

/-- The key loop of one forward-lookup goroutine. -/
def forwardKeysLoop (env : DiscoveryEnv) (ls : LoadState) (cys : List Config)
    (path : Str) (c : Container) (insp : ContainerJSON) :
    List (Str × Str) → DCMap → List Emission →
    List KvCall × Except GoPanic (DCMap × List Emission)
  | [], dcs, ems => ([], Except.ok (dcs, ems))
  | (key, val) :: rest, dcs, ems =>
    if containsB key flexMarker then
      match forwardProcessKey env ls cys path c insp key val dcs ems with
      | (kv, Except.error e) => (kv, Except.error e)
      | (kv, Except.ok (dcs', ems')) =>
        match forwardKeysLoop env ls cys path c insp rest dcs' ems' with
        | (kv', r) => (kv ++ kv', r)
    else forwardKeysLoop env ls cys path c insp rest dcs ems

/-- First cache entry with the requested id (the cache scan of lines
143–148). -/
def cacheFind (cache : List ContainerJSON) (cid : Str) : Option ContainerJSON :=
  cache.find? (fun i => i.id = cid)

/-- The zero value of `types.ContainerJSON` (`Config` nil). -/
def emptyJSON : ContainerJSON := ⟨[], 0, none⟩

/-- One forward-lookup goroutine (lines 119–207): skip claimed
containers and the flex container; consult the inspection cache and
inspect only when no usable cached inspection exists; then merge the
discovery loop (snapshot labels, inspect labels, env vars) and process
every discovery key. -/
def forwardContainer (env : DiscoveryEnv) (ls : LoadState) (cys : List Config)
    (path : Str) (s : FwdState) (c : Container) :
    List InspectCall × Except GoPanic FwdState :=
  let targeted := s.found.any (fun id => id = c.id)
  if ls.containerID ≠ c.id ∧ ¬targeted then
    let dl0 := c.labels.foldl (fun m kv => mapSet m kv.1 kv.2) []
    let insp0 := (cacheFind s.cache c.id).getD emptyJSON
    let (insp, cache', calls) :=
      if insp0.config = none then
        let call : InspectCall := ⟨c.id, s.cache.any (fun i => i.id = c.id)⟩
        match env.inspect c.id with
        | none => (emptyJSON, s.cache, [call])
        | some i => (i, s.cache ++ [i], [call])
      else (insp0, s.cache, [])
    match insp.config with
    | none => (calls, Except.ok { s with cache := cache' })
    | some cfg =>
      let dl1 := cfg.labels.foldl (fun m kv => mapSet m kv.1 kv.2) dl0
      let dl2 := cfg.env.foldl
        (fun m e =>
          match splitFirst '=' e with
          | some (k, v) => mapSet m k v
          | none => m) dl1
      match forwardKeysLoop env ls cys path c insp dl2 s.dcs s.ems with
      | (_, Except.error e) => (calls, Except.error e)
      | (_, Except.ok (dcs', ems')) =>
        (calls, Except.ok ⟨dcs', cache', s.found, ems'⟩)
  else ([], Except.ok s)

/-- Function `runForwardLookup`: the container fan-out, sequentialized in spawn
order. -/
def runForwardLookup (env : DiscoveryEnv) (ls : LoadState) (cys : List Config)
    (path : Str) : List Container → FwdState →
    List InspectCall × Except GoPanic FwdState
  | [], s => ([], Except.ok s)
  | c :: rest, s =>
    match forwardContainer env ls cys path s c with
    | (ic, Except.error e) => (ic, Except.error e)
    | (ic, Except.ok s') =>
      match runForwardLookup env ls cys path rest s' with
      | (ic', r) => (ic ++ ic', r)

/-! ## Top level: Run and CreateDynamicContainerConfigs -/

/-- Function `Run(containerDiscoveryAvailable, containers)` (lines 27–42): set the
docker client, list containers; on any failure only log, leaving both
out-parameters untouched. -/
def Run (env : DiscoveryEnv) (avail : Bool) (containers : List Container) :
    Bool × List Container :=
  match env.client with
  | none => (avail, containers)
  | some _ =>
    match env.containerList with
    | none => (avail, containers)
    | some l => if 0 < l.length then (true, l) else (avail, containers)

/-- Function `CreateDynamicContainerConfigs(containers, files, path, ymls)`
(lines 91–110): on docker-client failure only log (the caller-owned
`*ymls` receives nothing); otherwise identify the flex container, then
run the reverse and forward lookups.  Returns the final `*ymls`. -/
def CreateDynamicContainerConfigs (env : DiscoveryEnv) (ls : LoadState)
    (containers : List Container) (cys : List Config) (path : Str)
    (ymls : List Config) : Except GoPanic (List Config) :=
  match env.client with
  | none => Except.ok ymls
  | some _ =>
    let cid := findFlexContainerID ls containers
    let ls' := { ls with containerID := cid }
    match runReverseLookup env ls' cys path containers [] [] with
    | (_, _, Except.error e) => Except.error e
    | (_, _, Except.ok rs) =>
      match runForwardLookup env ls' cys path containers ⟨[], rs.cache, rs.found, []⟩ with
      | (_, Except.error e) => Except.error e
      | (_, Except.ok fs) =>
        Except.ok (ymls ++ (rs.ems ++ fs.ems).map (fun e => e.cfg))

/-! ## Basic lemmas about the string and map models -/

theorem isPfx_iff : ∀ (p s : Str), isPfx p s = true ↔ ∃ t, s = p ++ t := by
  intro p
  induction p with
  | nil =>
    intro s
    simp [isPfx]
  | cons a as ih =>
    intro s
    cases s with
    | nil =>
      simp [isPfx]
    | cons b bs =>
      simp only [isPfx, Bool.and_eq_true, decide_eq_true_eq, List.cons_append, ih bs]
      constructor
      · rintro ⟨rfl, t, rfl⟩
        exact ⟨t, rfl⟩
      · rintro ⟨t, h⟩
        injection h with h1 h2
        exact ⟨h1.symm, t, h2⟩

theorem pfx_total : ∀ (l a b : Str), isPfx a l = true → isPfx b l = true →
    isPfx a b = true ∨ isPfx b a = true := by
  intro l
  induction l with
  | nil =>
    intro a b ha hb
    cases a with
    | nil => exact Or.inl rfl
    | cons x xs => simp [isPfx] at ha
  | cons c cs ih =>
    intro a b ha hb
    cases a with
    | nil => exact Or.inl rfl
    | cons x xs =>
      cases b with
      | nil => exact Or.inr rfl
      | cons y ys =>
        simp only [isPfx, Bool.and_eq_true, decide_eq_true_eq] at ha hb ⊢
        rcases ha with ⟨rfl, ha2⟩
        rcases hb with ⟨rfl, hb2⟩
        rcases ih xs ys ha2 hb2 with h | h
        · exact Or.inl ⟨rfl, h⟩
        · exact Or.inr ⟨rfl, h⟩

theorem containsB_iff : ∀ (s sub : Str),
    containsB s sub = true ↔ ∃ a b, s = a ++ sub ++ b := by
  intro s
  induction s with
  | nil =>
    intro sub
    simp only [containsB, List.isEmpty_iff]
    constructor
    · rintro rfl
      exact ⟨[], [], rfl⟩
    · rintro ⟨a, b, h⟩
      rcases List.append_eq_nil.mp h.symm with ⟨h1, h2⟩
      exact (List.append_eq_nil.mp h1).2
  | cons c tl ih =>
    intro sub
    simp only [containsB, Bool.or_eq_true, ih]
    constructor
    · rintro (h | ⟨a, b, rfl⟩)
      · rcases (isPfx_iff sub (c :: tl)).mp h with ⟨t, ht⟩
        exact ⟨[], t, by simpa using ht⟩
      · exact ⟨c :: a, b, rfl⟩
    · rintro ⟨a, b, h⟩
      cases a with
      | nil =>
        refine Or.inl ((isPfx_iff sub (c :: tl)).mpr ⟨b, ?_⟩)
        simpa using h
      | cons a0 a' =>
        injection h with h1 h2
        exact Or.inr ⟨a', b, h2⟩

theorem containsB_append_left (x t sub : Str) (h : containsB t sub = true) :
    containsB (x ++ t) sub = true := by
  rcases (containsB_iff t sub).mp h with ⟨a, b, rfl⟩
  exact (containsB_iff _ sub).mpr ⟨x ++ a, b, by simp⟩

theorem containsB_of_isPfx (s sub : Str) (h : isPfx sub s = true) :
    containsB s sub = true := by
  rcases (isPfx_iff sub s).mp h with ⟨t, rfl⟩
  exact (containsB_iff _ sub).mpr ⟨[], t, by simp⟩

theorem drop_head? : ∀ (l : Str) (n : Nat), (l.drop n).head? = l.get? n := by
  intro l
  induction l with
  | nil =>
    intro n
    cases n <;> simp
  | cons c cs ih =>
    intro n
    cases n with
    | zero => simp
    | succ m => simp [ih m]

theorem mapGet_set_self {α : Type} (m : List (Str × α)) (k : Str) (v : α) :
    mapGet (mapSet m k v) k = some v := by
  induction m with
  | nil => simp [mapSet, mapGet]
  | cons kv tl ih =>
    rcases kv with ⟨k', w⟩
    by_cases h : k' = k
    · simp [mapSet, h, mapGet]
    · simp [mapSet, h, mapGet, ih]

theorem mapGet_set_ne {α : Type} (m : List (Str × α)) (k q : Str) (v : α)
    (h : k ≠ q) : mapGet (mapSet m k v) q = mapGet m q := by
  induction m with
  | nil => simp [mapSet, mapGet, h]
  | cons kv tl ih =>
    rcases kv with ⟨k', w⟩
    by_cases h' : k' = k
    · simp [mapSet, h', mapGet, h]
    · simp [mapSet, h', mapGet, ih]

theorem dget_set (dcs : DCMap) (key : Str) (fm : FieldMap) (f : Str) :
    dget (mapSet dcs key fm) key f = mapGet fm f := by
  simp [dget, mapGetD, mapGet_set_self]

/-! ## Lemmas about splitOnChar -/

theorem splitOnChar_not_mem (c : Char) : ∀ (l : Str), c ∉ l →
    splitOnChar c l = [l] := by
  intro l
  induction l with
  | nil => intro _; rfl
  | cons x xs ih =>
    intro h
    have hx : ¬ x = c := fun hc => h (hc ▸ List.mem_cons_self x xs)
    have hxs : c ∉ xs := fun hm => h (List.mem_cons_of_mem x hm)
    simp [splitOnChar, hx, ih hxs]

theorem splitOnChar_append (c : Char) : ∀ (a b : Str), c ∉ a →
    splitOnChar c (a ++ c :: b) = a :: splitOnChar c b := by
  intro a
  induction a with
  | nil =>
    intro b _
    simp [splitOnChar]
  | cons x xs ih =>
    intro b h
    have hx : ¬ x = c := fun hc => h (hc ▸ List.mem_cons_self x xs)
    have hxs : c ∉ xs := fun hm => h (List.mem_cons_of_mem x hm)
    simp [splitOnChar, hx, ih b hxs]

theorem containsB_single : ∀ (l : Str) (c : Char),
    containsB l [c] = true ↔ c ∈ l := by
  intro l
  induction l with
  | nil => intro c; simp [containsB]
  | cons x xs ih =>
    intro c
    simp only [containsB, isPfx, Bool.and_true, Bool.or_eq_true, decide_eq_true_eq,
      ih, List.mem_cons]

/-! ## Claim C5: pair-list encoding vs. dotted encoding -/

/-- The pair-list encoding `field1=value1,field2=value2`. -/
def pairEnc (f1 v1 f2 v2 : Str) : Str :=
  (f1 ++ '=' :: v1) ++ ',' :: (f2 ++ '=' :: v2)

/-- The dotted encoding `field1_value1.field2_value2`. -/
def dotEnc (f1 v1 f2 v2 : Str) : Str :=
  (f1 ++ '_' :: v1) ++ '.' :: (f2 ++ '_' :: v2)

/-- A string free of all four separator characters of the two
annotation encodings. -/
def sepFree (s : Str) : Prop :=
  ∀ ch ∈ s, ch ≠ '=' ∧ ch ≠ ',' ∧ ch ≠ '.' ∧ ch ≠ '_'

instance (s : Str) : Decidable (sepFree s) := by
  unfold sepFree
  infer_instance

/-- C5 (counterexample): the claim quantifies over *every* pair of field
names and values, but a value containing a separator character breaks
the equivalence: for `field1 = t, value1 = a.b, field2 = c, value2 = d`
the pair-list encoding parses `t ↦ a.b` while the dotted equivalent
parses `t ↦ a`. -/
theorem C5_counterexample :
    mapGet (parseVal [] (str "t=a.b,c=d")) (str "t") ≠
      mapGet (parseVal [] (str "t_a.b.c_d")) (str "t") := by
  decide

/-- C5 (amended): for field names and values free of the four separator
characters `=`, `,`, `.`, `_`, parsing the pair-list encoding
`field1=value1,field2=value2` and its dotted equivalent
`field1_value1.field2_value2` produce identical raw directive field
maps. -/
theorem C5_encoding_equiv (f1 v1 f2 v2 : Str)
    (h1 : sepFree f1) (h2 : sepFree v1) (h3 : sepFree f2) (h4 : sepFree v2) :
    parseVal [] (pairEnc f1 v1 f2 v2) = parseVal [] (dotEnc f1 v1 f2 v2) := by
  have e1 : '=' ∉ f1 := fun hm => ((h1 _ hm).1) rfl
  have e2 : '=' ∉ v1 := fun hm => ((h2 _ hm).1) rfl
  have e3 : '=' ∉ f2 := fun hm => ((h3 _ hm).1) rfl
  have e4 : '=' ∉ v2 := fun hm => ((h4 _ hm).1) rfl
  have k1 : ',' ∉ f1 := fun hm => ((h1 _ hm).2.1) rfl
  have k2 : ',' ∉ v1 := fun hm => ((h2 _ hm).2.1) rfl
  have d1 : '.' ∉ f1 := fun hm => ((h1 _ hm).2.2.1) rfl
  have d2 : '.' ∉ v1 := fun hm => ((h2 _ hm).2.2.1) rfl
  have d3 : '.' ∉ f2 := fun hm => ((h3 _ hm).2.2.1) rfl
  have d4 : '.' ∉ v2 := fun hm => ((h4 _ hm).2.2.1) rfl
  have u1 : '_' ∉ f1 := fun hm => ((h1 _ hm).2.2.2) rfl
  have u2 : '_' ∉ v1 := fun hm => ((h2 _ hm).2.2.2) rfl
  have u3 : '_' ∉ f2 := fun hm => ((h3 _ hm).2.2.2) rfl
  have u4 : '_' ∉ v2 := fun hm => ((h4 _ hm).2.2.2) rfl
  have hstrEq : str "=" = ['='] := rfl
  have hstrDot : str "." = ['.'] := rfl
  -- the pair-list encoding contains '='
  have hpe : containsB (pairEnc f1 v1 f2 v2) (str "=") = true := by
    rw [hstrEq]
    exact (containsB_single _ '=').mpr (by simp [pairEnc])
  -- split the pair-list encoding on ','
  have hna : ',' ∉ f1 ++ '=' :: v1 := by
    simp only [List.mem_append, List.mem_cons]
    rintro (h | h | h)
    · exact k1 h
    · exact absurd h (by decide)
    · exact k2 h
  have hnb : ',' ∉ f2 ++ '=' :: v2 := by
    simp only [List.mem_append, List.mem_cons]
    rintro (h | h | h)
    · exact (fun hm => ((h3 _ hm).2.1) rfl) h
    · exact absurd h (by decide)
    · exact (fun hm => ((h4 _ hm).2.1) rfl) h
  have hsplitP : splitOnChar ',' (pairEnc f1 v1 f2 v2) =
      [f1 ++ '=' :: v1, f2 ++ '=' :: v2] := by
    rw [pairEnc, splitOnChar_append _ _ _ hna, splitOnChar_not_mem _ _ hnb]
  have hsegP1 : splitOnChar '=' (f1 ++ '=' :: v1) = [f1, v1] := by
    rw [splitOnChar_append _ _ _ e1, splitOnChar_not_mem _ _ e2]
  have hsegP2 : splitOnChar '=' (f2 ++ '=' :: v2) = [f2, v2] := by
    rw [splitOnChar_append _ _ _ e3, splitOnChar_not_mem _ _ e4]
  -- the dotted encoding contains no '=' but does contain '.'
  have hdeNoEq : containsB (dotEnc f1 v1 f2 v2) (str "=") = false := by
    rw [hstrEq]
    refine Bool.eq_false_iff.mpr (fun h => ?_)
    have hm := (containsB_single _ '=').mp h
    simp only [dotEnc, List.mem_append, List.mem_cons] at hm
    rcases hm with (h' | h' | h') | h' | h' | h' | h'
    · exact e1 h'
    · exact absurd h' (by decide)
    · exact e2 h'
    · exact absurd h' (by decide)
    · exact e3 h'
    · exact absurd h' (by decide)
    · exact e4 h'
  have hdeDot : containsB (dotEnc f1 v1 f2 v2) (str ".") = true := by
    rw [hstrDot]
    exact (containsB_single _ '.').mpr (by simp [dotEnc])
  have hnc : '.' ∉ f1 ++ '_' :: v1 := by
    simp only [List.mem_append, List.mem_cons]
    rintro (h | h | h)
    · exact d1 h
    · exact absurd h (by decide)
    · exact d2 h
  have hnd : '.' ∉ f2 ++ '_' :: v2 := by
    simp only [List.mem_append, List.mem_cons]
    rintro (h | h | h)
    · exact d3 h
    · exact absurd h (by decide)
    · exact d4 h
  have hsplitD : splitOnChar '.' (dotEnc f1 v1 f2 v2) =
      [f1 ++ '_' :: v1, f2 ++ '_' :: v2] := by
    rw [dotEnc, splitOnChar_append _ _ _ hnc, splitOnChar_not_mem _ _ hnd]
  have hsegD1 : splitOnChar '_' (f1 ++ '_' :: v1) = [f1, v1] := by
    rw [splitOnChar_append _ _ _ u1, splitOnChar_not_mem _ _ u2]
  have hsegD2 : splitOnChar '_' (f2 ++ '_' :: v2) = [f2, v2] := by
    rw [splitOnChar_append _ _ _ u3, splitOnChar_not_mem _ _ u4]
  simp only [parseVal, hpe, hdeNoEq, hdeDot, if_true, if_false, hsplitP, hsplitD,
    Bool.false_eq_true, List.foldl_cons, List.foldl_nil, hsegP1, hsegP2, hsegD1, hsegD2]

/-- C5 (witness): the amended equivalence at the concrete separator-free
fields `t=redis,c=conf` vs `t_redis.c_conf`. -/
theorem C5_encoding_equiv_witness :
    parseVal [] (pairEnc (str "t") (str "redis") (str "c") (str "conf")) =
      parseVal [] (dotEnc (str "t") (str "redis") (str "c") (str "conf")) :=
  C5_encoding_equiv (str "t") (str "redis") (str "c") (str "conf")
    (by decide) (by decide) (by decide) (by decide)

/-! ## Claim C3: the Claim Set gives first-match-wins -/

theorem fctNamesLoop_false (dcs : DCMap) (key : Str) (c : Container)
    (found : List Str) :
    ∀ (ns : List Str) (f' : List Str),
      (fctNamesLoop dcs key c found ns).2 = Except.ok (false, f') → f' = found := by
  intro ns
  induction ns with
  | nil =>
    intro f' h
    simp only [fctNamesLoop, Except.ok.injEq, Prod.mk.injEq, true_and] at h
    exact h.symm
  | cons n rest ih =>
    intro f' h
    simp only [fctNamesLoop] at h
    split at h
    · simp at h
    · split at h
      · simp at h
      · split at h
        · simp at h
        · split at h
          · simp at h
          · simp at h
          · exact ih f' h

theorem findContainerTarget_ok_false (dcs : DCMap) (c : Container) (key : Str)
    (found : List Str) :
    ∀ (f' : List Str),
      (findContainerTarget dcs c key found).2 = Except.ok (false, f') →
      f' = found := by
  intro f' h
  simp only [findContainerTarget] at h
  split at h
  · simp only [Except.ok.injEq, Prod.mk.injEq, true_and] at h
    exact h.symm
  · split at h
    · simp only [Except.ok.injEq, Prod.mk.injEq, true_and] at h
      exact h.symm
    · split at h
      · exact fctNamesLoop_false dcs key c found c.names f' h
      · split at h
        · split at h
          · simp at h
          · split at h
            · simp at h
            · split at h
              · simp at h
              · simp only [Except.ok.injEq, Prod.mk.injEq, true_and] at h
                exact h.symm
        · simp only [Except.ok.injEq, Prod.mk.injEq, true_and] at h
          exact h.symm

/-- C3: once a container id is in the Claim Set
(`foundTargetContainerIds`), `findContainerTarget` returns `false` for
that container under every Directive — even one whose
target/type/mode would otherwise match — and every `false` return (from
any branch) leaves the Claim Set unchanged. -/
theorem C3_claim_set_first_match (dcs : DCMap) (c : Container) (key : Str)
    (found : List Str) :
    (c.id ∈ found →
      (findContainerTarget dcs c key found).2 = Except.ok (false, found)) ∧
    (∀ f', (findContainerTarget dcs c key found).2 = Except.ok (false, f') →
      f' = found) := by
  constructor
  · intro hmem
    have hany : found.any (fun id => id = c.id) = true := by
      simp only [List.any_eq_true, decide_eq_true_eq]
      exact ⟨c.id, hmem, rfl⟩
    simp [findContainerTarget, hany]
  · exact findContainerTarget_ok_false dcs c key found

/-! ## Claim C2: a Directive without a target never attempts a match -/

theorem fctNamesLoop_no_t (dcs : DCMap) (key : Str) (c : Container)
    (found : List Str) (ht : dget dcs key (str "t") = none) :
    ∀ (ns : List Str), (fctNamesLoop dcs key c found ns).1 = [] := by
  intro ns
  cases ns with
  | nil => rfl
  | cons n rest =>
    simp only [fctNamesLoop, ht, asString]
    split <;> rfl

theorem findContainerTarget_no_t_calls (dcs : DCMap) (c : Container) (key : Str)
    (found : List Str) (ht : dget dcs key (str "t") = none) :
    (findContainerTarget dcs c key found).1 = [] := by
  simp only [findContainerTarget]
  split
  · rfl
  · split
    · rfl
    · split
      · exact fctNamesLoop_no_t dcs key c found ht c.names
      · split
        · simp only [ht, asString]
          split <;> rfl
        · rfl

/-- C2: for every annotation value whose decoded field map has no `t`
(target) entry, neither the reverse-lookup per-key step nor the
forward-lookup per-key step ever invokes the target matcher's
name/image comparison (`formatter.KvFinder`): the recorded comparison
call lists are empty in both lookup directions. -/
theorem C2_no_target_no_match (env : DiscoveryEnv) (ls : LoadState)
    (cys : List Config) (path : Str) (c : Container) (insp : ContainerJSON)
    (key val : Str) (s : RevState) (dcs : DCMap) (ems : List Emission)
    (ht : mapGet (parseVal [] val) (str "t") = none) :
    (reverseProcessKey env ls cys path c key val s).2.1 = [] ∧
    (forwardProcessKey env ls cys path c insp key val dcs ems).1 = [] := by
  constructor
  · have hd1 : mapGetD (mapSet s.dcs key ([] : FieldMap)) key [] = [] := by
      simp [mapGetD, mapGet_set_self]
    have ht2 : dget (mapSet (mapSet s.dcs key []) key (parseVal [] val)) key
        (str "t") = none := by
      rw [dget_set]
      exact ht
    simp only [reverseProcessKey, parseFlexDiscoveryLabel, hd1, ht2]
    cases hins : env.inspect c.id with
    | none => rfl
    | some i =>
      have hkv := findContainerTarget_no_t_calls
        (mapSet (mapSet s.dcs key []) key (parseVal [] val)) c key s.found ht2
      rcases hf : findContainerTarget
        (mapSet (mapSet s.dcs key []) key (parseVal [] val)) c key s.found with ⟨kv, r⟩
      rw [hf] at hkv
      simp only at hkv
      subst hkv
      cases r with
      | error e => simp [hf]
      | ok br =>
        rcases br with ⟨b, f2⟩
        cases b
        · simp [hf]
        · simp only [hf]
          cases hadc : addDynamicConfig env ls cys
            (mapSet (mapSet s.dcs key []) key (parseVal [] val)) c i key path <;> simp
  · have hd1 : mapGetD (mapSet dcs key ([] : FieldMap)) key [] = [] := by
      simp [mapGetD, mapGet_set_self]
    have ht2 : dget (mapSet (mapSet dcs key []) key (parseVal [] val)) key
        (str "t") = none := by
      rw [dget_set]
      exact ht
    simp only [forwardProcessKey, parseFlexDiscoveryLabel, hd1, ht2]

/-- C2 (witness): a directive value that decodes to `tt=img,tm=contains`
with no target: neither lookup direction records a KvFinder call. -/
theorem C2_no_target_no_match_witness :
    (reverseProcessKey
      ⟨some (), some [], fun i => some ⟨i, 7, some ⟨[], [], []⟩⟩, fun _ => none,
        fun _ => none, fun _ => none, fun _ => none, fun _ => none⟩
      ⟨str "F", str "private", [], str "nri-flex", str "flex"⟩ [] (str "conf/")
      ⟨str "abcdefabcdef", [str "/redis1"], str "redis:6.2", [], [], []⟩
      (str "flexDiscoveryRedis") (str "tt=img,tm=contains")
      ⟨[], [], [], []⟩).2.1 = [] ∧
    (forwardProcessKey
      ⟨some (), some [], fun i => some ⟨i, 7, some ⟨[], [], []⟩⟩, fun _ => none,
        fun _ => none, fun _ => none, fun _ => none, fun _ => none⟩
      ⟨str "F", str "private", [], str "nri-flex", str "flex"⟩ [] (str "conf/")
      ⟨str "abcdefabcdef", [str "/redis1"], str "redis:6.2", [], [], []⟩
      ⟨str "abcdefabcdef", 7, some ⟨[], [], []⟩⟩
      (str "flexDiscoveryRedis") (str "tt=img,tm=contains") [] []).1 = [] :=
  C2_no_target_no_match _ _ _ _ _ _ _ _ _ _ _ (by decide)

/-- C3 (witness): the concrete matcher call for a container already in
the Claim Set, under a Directive (`t=redis`, `tt=img`, `tm=contains`)
that would otherwise match the container's image `redis:6.2`. -/
theorem C3_claim_set_first_match_witness :
    (findContainerTarget
      [(str "k", [(str "t", str "redis"), (str "tt", str "img"),
        (str "tm", str "contains")])]
      ⟨str "abcdefabcdef", [], str "redis:6.2", [], [], []⟩
      (str "k") [str "abcdefabcdef"]).2 =
      Except.ok (false, [str "abcdefabcdef"]) :=
  (C3_claim_set_first_match _ _ _ _).1 (by decide)

/-! ## Claim C6: the orchestrator-label name fallback -/

/-- C6: in the `cname` branch of `findContainerTarget`, for a candidate
whose stripped name (`other`) does not match the target (`cache`) but
which carries the `io.kubernetes.container.name` label with a matching
value, the matcher does *not* compare the label value and claim the
container: the shadowed loop variable makes it index `discoveryConfigs`
by the label key itself, and the `.(string)` assertion on the resulting
nil entry panics.  The single recorded comparison is the (failed)
stripped-name comparison; the outcome is a Go panic, not `true`. -/
theorem C6_label_fallback_panics :
    findContainerTarget
      [(str "flexDiscoveryCache",
        [(str "t", str "cache"), (str "tt", str "cname"),
          (str "tm", str "contains")])]
      ⟨str "abcdefabcdef", [str "/other"], str "postgres:14",
        [(kubeNameKey, str "cache")], [], []⟩
      (str "flexDiscoveryCache") [] =
    ([⟨str "contains", str "other", str "cache"⟩],
      Except.error GoPanic.interfaceConversion) := by
  decide

/-! ## Claim C1: the port override -/

/-- C1: the Directive's port override is *not* substituted verbatim.
With `p = 8080` set, effective ip mode `private`, no port mappings, and
a template `port: $\x7bauto:port\x7d`, the ip-mode switch overwrites the
overridden port with the (empty) private mapping port and the
exposed-port fallback then substitutes `6379`: the emitted text is
`port: 6379`, not `port: 8080`; the IP chain is unaffected. -/
theorem C1_port_override_clobbered :
    addDynamicConfig
      ⟨some (), some [], fun _ => none,
        fun f => if f = str "conf/redis.yml"
          then some (str "port: $\x7bauto:port\x7d") else none,
        fun _ => some ⟨str "redis.yml", none⟩,
        fun _ => none, fun _ => none, fun _ => none⟩
      ⟨[], str "private", [], str "nri-flex", str "flex"⟩
      [⟨str "redis.yml", none⟩]
      [(str "flexDiscoveryRedis",
        [(str "t", str "redis"), (str "c", str "redis"), (str "tt", str "img"),
          (str "tm", str "contains"), (str "p", str "8080")])]
      ⟨str "abcdefabcdef", [str "/redis1"], str "redis:6.2", [],
        [str "172.17.0.5"], []⟩
      ⟨str "abcdefabcdef", 42, some ⟨[], [], [str "6379"]⟩⟩
      (str "flexDiscoveryRedis") (str "conf/") =
    Except.ok [⟨str "port: 6379",
      ⟨str "redis.yml",
        some [(str "containerID", str "abcdefabcdef"),
          (str "image", str "redis:6.2"),
          (str "IDShort", str "abcdefabcdef")]⟩⟩] := by
  decide

/-! ## Claim C10: the IDShort decoration slice -/

/-- C10: every decorated configuration takes `ID[0:12]` as the `IDShort`
attribute, and for a target container whose id is shorter than 12
characters the decoration panics (slice out of range) instead of
emitting or skipping. -/
theorem C10_idshort_slice (tc : Container) (cfg : Config) :
    (12 ≤ tc.id.length →
      ∃ m, decorateConfig tc cfg = Except.ok ⟨cfg.fileName, some m⟩ ∧
        mapGet m (str "IDShort") = some (tc.id.take 12)) ∧
    (tc.id.length < 12 →
      decorateConfig tc cfg = Except.error GoPanic.sliceBounds) := by
  constructor
  · intro h
    simp only [decorateConfig, if_pos h]
    exact ⟨_, rfl, mapGet_set_self _ _ _⟩
  · intro h
    have h' : ¬ (12 ≤ tc.id.length) := by omega
    simp [decorateConfig, h']

/-- C10 (witness): decoration at a 14-character id yields
`IDShort = abcdefabcdef`; at a 5-character id it panics. -/
theorem C10_idshort_slice_witness :
    (∃ m, decorateConfig
        ⟨str "abcdefabcdefgh", [], str "redis:6.2", [], [], []⟩
        ⟨str "redis.yml", none⟩ =
        Except.ok ⟨str "redis.yml", some m⟩ ∧
      mapGet m (str "IDShort") = some ((str "abcdefabcdefgh").take 12)) ∧
    decorateConfig ⟨str "short", [], str "redis:6.2", [], [], []⟩
      ⟨str "redis.yml", none⟩ = Except.error GoPanic.sliceBounds :=
  ⟨(C10_idshort_slice _ _).1 (by decide), (C10_idshort_slice _ _).2 (by decide)⟩

/-! ## Claim C8: the self-identifier fallback order -/

/-- C8 (counterexample): with the name-matching container enumerated
first, `findFlexContainerID` sets the self id to the *name*-matching
container's id, not the image-matching one: the first fallback step is
not exhausted over all containers before the second is attempted. -/
theorem C8_counterexample :
    findFlexContainerID ⟨[], str "private", [], str "nri-flex", str "flex"⟩
      [⟨str "bbbbbbbbbbbb", [str "/my-flex"], str "redis:6", [], [], []⟩,
        ⟨str "aaaaaaaaaaaa", [str "/svc1"], str "example/nri-flex:latest",
          [], [], []⟩] = str "bbbbbbbbbbbb" ∧
    str "bbbbbbbbbbbb" ≠ str "aaaaaaaaaaaa" := by
  decide

/-- C8 (amended): each container's unit of work tries the three fallback
steps in order for that container alone, so the winner is the first
*processed* matching container, not the image match globally: with the
image-matching container first the image match wins, with the
name-matching container first the name match wins. -/
theorem C8_first_processed_wins (ls : LoadState) (c1 c2 : Container)
    (h0 : ls.containerID = [])
    (h1 : containsB c1.image ls.integrationName = true)
    (h2 : containsB c2.image ls.integrationName = false)
    (h3 : c2.names.any
      (fun n => containsB (trimLead (str "/") n) ls.integrationNameShort) = true)
    (h4 : c1.id ≠ []) (h5 : c2.id ≠ []) :
    findFlexContainerID ls [c1, c2] = c1.id ∧
    findFlexContainerID ls [c2, c1] = c2.id := by
  constructor
  · simp [findFlexContainerID, h0, ffcStep, h1, h2, h3, h4, h5]
  · simp [findFlexContainerID, h0, ffcStep, h1, h2, h3, h4, h5]

/-! ## Claim C7: the inspection cache -/

/-- C7 (counterexample): a reverse-lookup pass in which a runtime
inspect call *does* occur for an id already in the inspection cache.
The flex container `FFFFFFFFFFFF` publishes two discovery keys; key A
matches container `CCCCCCCCCCCC` and appends its inspection to the
cache, and key B then inspects `CCCCCCCCCCCC` again — the third
recorded call carries `inCache = true`, so inspections are not
"at most once per container per pass". -/
theorem C7_counterexample :
    (runReverseLookup
      ⟨some (), some [],
        fun i =>
          if i = str "FFFFFFFFFFFF" then
            some ⟨str "FFFFFFFFFFFF", 1,
              some ⟨[(str "flexDiscoveryA", str "t=redis"),
                (str "flexDiscoveryB", str "t=redis")], [], []⟩⟩
          else if i = str "CCCCCCCCCCCC" then
            some ⟨str "CCCCCCCCCCCC", 2, some ⟨[], [], []⟩⟩
          else none,
        fun _ => none, fun _ => none, fun _ => none, fun _ => none, fun _ => none⟩
      ⟨str "FFFFFFFFFFFF", str "private", [], str "nri-flex", str "flex"⟩
      [] (str "conf/")
      [⟨str "CCCCCCCCCCCC", [str "/redis1"], str "redis:6.2", [],
        [str "172.17.0.5"], []⟩]
      [] []).1 =
    [⟨str "FFFFFFFFFFFF", false⟩, ⟨str "CCCCCCCCCCCC", false⟩,
      ⟨str "CCCCCCCCCCCC", true⟩] := by
  decide

/-- C7 (amended): the forward lookup consults the per-pass cache first
and issues no runtime inspect call when a usable (non-nil-config) cached
inspection exists for the container's id; the reverse lookup, by
contrast, issues exactly one runtime inspect call for every discovery
key of every candidate container, without consulting the cache — so an
id already in the cache can be inspected again. -/
theorem C7_cache_consultation (env : DiscoveryEnv) (ls : LoadState)
    (cys : List Config) (path : Str) (s : FwdState) (c : Container)
    (i : ContainerJSON) (sr : RevState) (key val : Str)
    (hfind : cacheFind s.cache c.id = some i) (hconf : i.config ≠ none) :
    (forwardContainer env ls cys path s c).1 = [] ∧
    (reverseProcessKey env ls cys path c key val sr).1 =
      [⟨c.id, sr.cache.any (fun j => j.id = c.id)⟩] := by
  constructor
  · simp only [forwardContainer]
    split
    · rw [hfind]
      simp only [Option.getD_some]
      rw [if_neg hconf]
      cases hc : i.config with
      | none => exact absurd hc hconf
      | some cfg =>
        simp only [hc]
        rcases hkl : forwardKeysLoop env ls cys path c i
          (cfg.env.foldl
            (fun m e =>
              match splitFirst '=' e with
              | some (k, v) => mapSet m k v
              | none => m)
            (cfg.labels.foldl (fun m kv => mapSet m kv.1 kv.2)
              (c.labels.foldl (fun m kv => mapSet m kv.1 kv.2) []))) s.dcs s.ems
          with ⟨kv, r⟩
        cases r <;> simp [hkl]
    · rfl
  · simp only [reverseProcessKey]
    split
    · rfl
    · split
      · rfl
      · split <;> rfl
      · rfl

/-- C7 (witness): the amended statement at concrete inputs — a forward
lookup with a usable cached inspection for `abcdefabcdef` issues no
inspect call, while a reverse-lookup key step for the same container
(with an empty cache) records exactly one call. -/
theorem C7_cache_consultation_witness :
    (forwardContainer
      ⟨some (), some [], fun _ => none, fun _ => none, fun _ => none,
        fun _ => none, fun _ => none, fun _ => none⟩
      ⟨str "F", str "private", [], str "nri-flex", str "flex"⟩ [] (str "conf/")
      ⟨[], [⟨str "abcdefabcdef", 3, some ⟨[], [], []⟩⟩], [], []⟩
      ⟨str "abcdefabcdef", [str "/redis1"], str "redis:6.2", [], [], []⟩).1 = [] ∧
    (reverseProcessKey
      ⟨some (), some [], fun _ => none, fun _ => none, fun _ => none,
        fun _ => none, fun _ => none, fun _ => none⟩
      ⟨str "F", str "private", [], str "nri-flex", str "flex"⟩ [] (str "conf/")
      ⟨str "abcdefabcdef", [str "/redis1"], str "redis:6.2", [], [], []⟩
      (str "flexDiscoveryA") (str "t=redis") ⟨[], [], [], []⟩).1 =
      [⟨str "abcdefabcdef", false⟩] :=
  C7_cache_consultation _ _ _ _ _ _ ⟨str "abcdefabcdef", 3, some ⟨[], [], []⟩⟩ _
    _ _ (by decide) (by decide)

/-! ## Claim C9: pass-level error handling -/

/-- C9 (counterexample): a single-directive failure *can* abort the
discovery pass as a whole.  With a working docker client, the flex
container's single annotation decodes to `tt=img,tm=contains` with no
target; the reverse lookup still invokes the target matcher for the
candidate container, and the `.(string)` assertion on the nil `t` entry
panics — `CreateDynamicContainerConfigs` ends in a pass-level Go panic
instead of returning its (empty) result normally. -/
theorem C9_counterexample :
    CreateDynamicContainerConfigs
      ⟨some (), some [],
        fun i =>
          if i = str "FFFFFFFFFFFF" then
            some ⟨str "FFFFFFFFFFFF", 1,
              some ⟨[(str "flexDiscoveryA", str "tt=img,tm=contains")], [], []⟩⟩
          else if i = str "CCCCCCCCCCCC" then
            some ⟨str "CCCCCCCCCCCC", 2, some ⟨[], [], []⟩⟩
          else none,
        fun _ => none, fun _ => none, fun _ => none, fun _ => none, fun _ => none⟩
      ⟨str "FFFFFFFFFFFF", str "private", [], str "nri-flex", str "flex"⟩
      [⟨str "CCCCCCCCCCCC", [str "/redis1"], str "redis:6.2", [],
        [str "172.17.0.5"], []⟩]
      [] (str "conf/") [] = Except.error GoPanic.interfaceConversion := by
  decide

/-- C9 (amended): for every failure of docker-client construction or
container listing, the discovery pass returns normally with an empty
result: `Run` leaves both out-parameters untouched, and
`CreateDynamicContainerConfigs` returns `Except.ok` (no panic reaches
the caller) with the caller-owned output collection unchanged — no
single-container or single-directive processing happens at all under
such a failure.  (The original claim's further guarantee that no
single-container or single-directive failure ever aborts the pass as a
whole is false of the code: directive-level `.(string)` and slice
panics propagate out of the whole pass.) -/
theorem C9_client_failure_yields_empty :
    (∀ (env : DiscoveryEnv) (avail : Bool) (cs : List Container),
      env.client = none ∨ env.containerList = none →
      Run env avail cs = (avail, cs)) ∧
    (∀ (env : DiscoveryEnv) (ls : LoadState) (containers : List Container)
      (cys : List Config) (path : Str) (ymls : List Config),
      env.client = none →
      CreateDynamicContainerConfigs env ls containers cys path ymls =
        Except.ok ymls) := by
  constructor
  · rintro env avail cs (h | h)
    · simp [Run, h]
    · cases hc : env.client with
      | none => simp [Run, hc]
      | some u => simp [Run, hc, h]
  · intro env ls containers cys path ymls h
    simp [CreateDynamicContainerConfigs, h]

/-- C9 (witness): the failing-client environment at concrete inputs:
`Run` leaves `(false, [])` untouched and
`CreateDynamicContainerConfigs` returns its `ymls` argument unchanged. -/
theorem C9_client_failure_yields_empty_witness :
    Run ⟨none, none, fun _ => none, fun _ => none, fun _ => none,
        fun _ => none, fun _ => none, fun _ => none⟩ false [] = (false, []) ∧
    CreateDynamicContainerConfigs
      ⟨none, none, fun _ => none, fun _ => none, fun _ => none,
        fun _ => none, fun _ => none, fun _ => none⟩
      ⟨[], str "private", [], str "nri-flex", str "flex"⟩ [] [] (str "conf/")
      [⟨str "existing.yml", none⟩] = Except.ok [⟨str "existing.yml", none⟩] :=
  ⟨C9_client_failure_yields_empty.1 _ _ _ (Or.inl rfl),
    C9_client_failure_yields_empty.2 _ _ _ _ _ _ rfl⟩

/-! ## Claim C4: emission only without leftover placeholders

The delicate part is that substituting the `host`/`ip` placeholders can
never destroy an occurrence of the `port` placeholder: the patterns
cannot overlap (each starts with the only `$` it contains). -/

theorem replaceAllGo_pres_isPfx (H P r : Str) (hHne : H ≠ [])
    (hOv0 : isPfx H P = false) (hOv0' : isPfx P H = false)
    (hHd : ∀ j, j < P.length → 0 < j → P.get? j ≠ H.head?) :
    ∀ (fuel : Nat) (l : Str) (j : Nat), l.length ≤ fuel → j < P.length →
      isPfx (P.drop j) l = true →
      isPfx (P.drop j) (replaceAllGo H r fuel l) = true := by
  intro fuel
  induction fuel with
  | zero =>
    intro l j hlen hj hpfx
    have hl : l = [] := List.eq_nil_of_length_eq_zero (Nat.le_zero.mp hlen)
    subst hl
    simpa [replaceAllGo] using hpfx
  | succ fuel ih =>
    intro l j hlen hj hpfx
    cases l with
    | nil => simpa [replaceAllGo] using hpfx
    | cons c cs =>
      have hlen' : cs.length ≤ fuel := by
        simp only [List.length_cons] at hlen
        omega
      have hdropne : P.drop j ≠ [] := by
        intro hnil
        have hlp := List.length_drop j P
        rw [hnil] at hlp
        simp only [List.length_nil] at hlp
        omega
      obtain ⟨d, ds, hd⟩ := List.exists_cons_of_ne_nil hdropne
      rw [hd] at hpfx
      have hdc : d = c ∧ isPfx ds cs = true := by
        simpa [isPfx] using hpfx
      have hget : P.get? j = some d := by
        rw [← drop_head?, hd]
        rfl
      have hA : ¬ (isPfx H (c :: cs) = true ∧ H ≠ []) := by
        rintro ⟨hHp, -⟩
        obtain ⟨h0, H2, hHdecomp⟩ := List.exists_cons_of_ne_nil hHne
        have hh0 : h0 = c := by
          rw [hHdecomp] at hHp
          exact (by simpa [isPfx] using hHp : h0 = c ∧ isPfx H2 cs = true).1
        rcases Nat.eq_zero_or_pos j with hj0 | hjpos
        · subst hj0
          rw [List.drop_zero] at hd
          have hPp : isPfx P (c :: cs) = true := by
            rw [hd]
            simpa [isPfx, hdc.1] using hdc.2
          rcases pfx_total (c :: cs) H P hHp hPp with h | h
          · rw [hOv0] at h
            cases h
          · rw [hOv0'] at h
            cases h
        · apply hHd j hj hjpos
          rw [hget, hHdecomp, hh0, hdc.1]
          rfl
      have hgoeq : replaceAllGo H r (fuel + 1) (c :: cs) =
          c :: replaceAllGo H r fuel cs := by
        simp only [replaceAllGo, if_neg hA]
      rw [hgoeq, hd]
      have hds : ds = P.drop (j + 1) := by
        have h1 := List.drop_drop 1 j P
        rw [hd] at h1
        simpa using h1
      rcases Nat.lt_or_ge (j + 1) P.length with hlt | hge
      · have hih := ih cs (j + 1) hlen' hlt (by rw [← hds]; exact hdc.2)
        simp [isPfx, hdc.1, hds, hih]
      · have hnil : P.drop (j + 1) = [] := List.drop_eq_nil_of_le hge
        simp [isPfx, hdc.1, hds, hnil]

theorem replaceAllGo_keeps (H P r : Str) (hHne : H ≠ []) (hPne : P ≠ [])
    (hOv : ∀ j, j < H.length →
      isPfx (List.drop j H) P = false ∧ isPfx P (List.drop j H) = false)
    (hHd : ∀ j, j < P.length → 0 < j → P.get? j ≠ H.head?) :
    ∀ (fuel : Nat) (l : Str), l.length ≤ fuel → containsB l P = true →
      containsB (replaceAllGo H r fuel l) P = true := by
  have hH0 : 0 < H.length := List.length_pos.mpr hHne
  have hOv0 : isPfx H P = false := by
    have := (hOv 0 hH0).1
    rwa [List.drop_zero] at this
  have hOv0' : isPfx P H = false := by
    have := (hOv 0 hH0).2
    rwa [List.drop_zero] at this
  intro fuel
  induction fuel with
  | zero =>
    intro l hlen hcon
    have hl : l = [] := List.eq_nil_of_length_eq_zero (Nat.le_zero.mp hlen)
    subst hl
    simpa [replaceAllGo] using hcon
  | succ fuel ih =>
    intro l hlen hcon
    cases l with
    | nil => simpa [replaceAllGo] using hcon
    | cons c cs =>
      have hlen' : cs.length ≤ fuel := by
        simp only [List.length_cons] at hlen
        omega
      by_cases hA : isPfx H (c :: cs) = true
      · have hcond : isPfx H (c :: cs) = true ∧ H ≠ [] := ⟨hA, hHne⟩
        obtain ⟨h0, H2, hHdecomp⟩ := List.exists_cons_of_ne_nil hHne
        obtain ⟨t, ht⟩ := (isPfx_iff H (c :: cs)).mp hA
        have hdropt : List.drop (H.length - 1) cs = t := by
          rw [hHdecomp] at ht
          injection ht with h1 h2
          rw [hHdecomp, h2]
          simp only [List.length_cons, Nat.add_sub_cancel]
          exact List.drop_left H2 t
        have hlen2 : (List.drop (H.length - 1) cs).length ≤ fuel := by
          rw [List.length_drop]
          omega
        obtain ⟨a, b, hab⟩ := (containsB_iff (c :: cs) P).mp hcon
        have hab' : c :: cs = a ++ (P ++ b) := by
          rw [hab, List.append_assoc]
        have hapfx : isPfx a (c :: cs) = true :=
          (isPfx_iff _ _).mpr ⟨P ++ b, hab'⟩
        have hgoal : containsB t P = true → containsB
            (replaceAllGo H r (fuel + 1) (c :: cs)) P = true := by
          intro hct
          have hrec := ih (List.drop (H.length - 1) cs) hlen2
            (by rw [hdropt]; exact hct)
          simp only [replaceAllGo, if_pos hcond]
          exact containsB_append_left r _ P hrec
        rcases pfx_total (c :: cs) a H hapfx hA with haH | hHa
        · obtain ⟨a2, ha2⟩ := (isPfx_iff a H).mp haH
          cases a2 with
          | nil =>
            rw [List.append_nil] at ha2
            apply hgoal
            have hteq : t = P ++ b := by
              apply @List.append_cancel_left Char H _ _
              rw [← ht, hab', ha2]
            exact (containsB_iff t P).mpr ⟨[], b, by simp [hteq]⟩
          | cons a20 a2' =>
            exfalso
            have hlena : a.length < H.length := by
              rw [ha2]
              simp only [List.length_append, List.length_cons]
              omega
            have hdropH : List.drop a.length H = a20 :: a2' := by
              rw [ha2]
              exact List.drop_left a _
            have hPb : P ++ b = (a20 :: a2') ++ t := by
              apply @List.append_cancel_left Char a _ _
              rw [← hab', ht, ha2, List.append_assoc]
            have h1 : isPfx (a20 :: a2') (P ++ b) = true :=
              (isPfx_iff _ _).mpr ⟨t, hPb⟩
            have h2 : isPfx P (P ++ b) = true := (isPfx_iff _ _).mpr ⟨b, rfl⟩
            rcases pfx_total (P ++ b) (a20 :: a2') P h1 h2 with h3 | h3
            · have hov := (hOv a.length hlena).1
              rw [hdropH] at hov
              rw [hov] at h3
              cases h3
            · have hov := (hOv a.length hlena).2
              rw [hdropH] at hov
              rw [hov] at h3
              cases h3
        · obtain ⟨a2, ha2⟩ := (isPfx_iff H a).mp hHa
          apply hgoal
          have hteq : t = a2 ++ (P ++ b) := by
            apply @List.append_cancel_left Char H _ _
            rw [← ht, hab', ha2, List.append_assoc]
          exact (containsB_iff t P).mpr ⟨a2, b, by rw [hteq, List.append_assoc]⟩
      · have hAcond : ¬ (isPfx H (c :: cs) = true ∧ H ≠ []) := fun hc => hA hc.1
        have hgoeq : replaceAllGo H r (fuel + 1) (c :: cs) =
            c :: replaceAllGo H r fuel cs := by
          simp only [replaceAllGo, if_neg hAcond]
        rw [hgoeq]
        simp only [containsB, Bool.or_eq_true] at hcon ⊢
        rcases hcon with hpfx | hrest
        · left
          have hpres := replaceAllGo_pres_isPfx H P r hHne hOv0 hOv0' hHd
            (fuel + 1) (c :: cs) 0 hlen (List.length_pos.mpr hPne)
            (by rw [List.drop_zero]; exact hpfx)
          rw [List.drop_zero, hgoeq] at hpres
          exact hpres
        · right
          exact ih cs hlen' hrest

theorem replaceAll_keeps_hostTok (x l : Str) (h : containsB l portTok = true) :
    containsB (replaceAll hostTok x l) portTok = true :=
  replaceAllGo_keeps hostTok portTok x (by decide) (by decide) (by decide)
    (by decide) l.length l (Nat.le_refl _) h

theorem replaceAll_keeps_ipTok (x l : Str) (h : containsB l portTok = true) :
    containsB (replaceAll ipTok x l) portTok = true :=
  replaceAllGo_keeps ipTok portTok x (by decide) (by decide) (by decide)
    (by decide) l.length l (Nat.le_refl _) h

theorem substHostIP_keeps (x b : Str) (h : containsB b portTok = true) :
    containsB (substHostIP x b) portTok = true := by
  unfold substHostIP
  split
  · exact replaceAll_keeps_ipTok x _ (replaceAll_keeps_hostTok x b h)
  · exact h

theorem kubePortLoop_no_label (env : DiscoveryEnv) :
    ∀ (ls : List (Str × Str)) (yml port : Str),
      (∀ kv ∈ ls, kv.1 ≠ kubePortsKey) →
      kubePortLoop env ls yml port = Except.ok (yml, port) := by
  intro ls
  induction ls with
  | nil =>
    intro yml port _
    rfl
  | cons kv rest ih =>
    intro yml port h
    have h1 : kv.1 ≠ kubePortsKey := h kv (List.mem_cons_self _ _)
    have h2 : ∀ kv ∈ rest, kv.1 ≠ kubePortsKey :=
      fun x hx => h x (List.mem_cons_of_mem _ hx)
    obtain ⟨k, v⟩ := kv
    simp only [kubePortLoop, if_neg h1]
    exact ih yml port h2

theorem exposedPortFallback_empty (insp : ContainerJSON) (yml : Str)
    (hexp : ∀ cfg, insp.config = some cfg → cfg.exposedPorts = []) :
    exposedPortFallback insp yml [] = (yml, []) := by
  unfold exposedPortFallback
  rw [if_pos rfl]
  cases hc : insp.config with
  | none => rfl
  | some cfg =>
    simp [hexp cfg hc]

theorem portPhase_empty (env : DiscoveryEnv) (insp : ContainerJSON)
    (labels : List (Str × Str))
    (hlab : ∀ kv ∈ labels, kv.1 ≠ kubePortsKey)
    (hexp : ∀ cfg, insp.config = some cfg → cfg.exposedPorts = [])
    (yml : Str) :
    portPhase env insp labels [] yml = Except.ok (yml, []) := by
  unfold portPhase
  rw [if_neg (by simp)]
  rw [kubePortLoop_no_label env labels yml [] hlab]
  simp only [exposedPortFallback_empty insp yml hexp]

theorem adcFinish_no_tokens (env : DiscoveryEnv) (tc : Container) (yml3 : Str)
    (ems : List Emission) (h : adcFinish env tc yml3 = Except.ok ems) :
    ∀ em ∈ ems, containsB em.text hostTok = false ∧
      containsB em.text ipTok = false ∧ containsB em.text portTok = false := by
  intro em hem
  unfold adcFinish at h
  split at h
  · injection h with h'
    rw [← h'] at hem
    exact absurd hem (List.not_mem_nil em)
  · rename_i hguard
    push_neg at hguard
    split at h
    · injection h with h'
      rw [← h'] at hem
      exact absurd hem (List.not_mem_nil em)
    · split at h
      · cases h
      · injection h with h'
        rw [← h'] at hem
        rcases List.mem_singleton.mp hem with rfl
        refine ⟨?_, ?_, ?_⟩
        · exact Bool.not_eq_true _ ▸ Bool.eq_false_iff.mpr hguard.1
        · exact Bool.eq_false_iff.mpr hguard.2.1
        · exact Bool.eq_false_iff.mpr hguard.2.2

theorem adcFinish_port_in (env : DiscoveryEnv) (tc : Container) (yml3 : Str)
    (h : containsB yml3 portTok = true) :
    adcFinish env tc yml3 = Except.ok [] := by
  unfold adcFinish
  rw [if_pos (Or.inr (Or.inr h))]

theorem adcOne_no_tokens (env : DiscoveryEnv) (ls : LoadState) (dcs : DCMap)
    (key : Str) (tc : Container) (insp : ContainerJSON) (path : Str)
    (cy : Config) (ems : List Emission)
    (h : adcOne env ls dcs key tc insp path cy = Except.ok ems) :
    ∀ em ∈ ems, containsB em.text hostTok = false ∧
      containsB em.text ipTok = false ∧ containsB em.text portTok = false := by
  intro em hem
  simp only [adcOne] at h
  split at h
  · split at h
    · injection h with h'
      rw [← h'] at hem
      exact absurd hem (List.not_mem_nil em)
    · split at h
      · cases h
      · exact adcFinish_no_tokens _ _ _ _ h em hem
  · injection h with h'
    rw [← h'] at hem
    exact absurd hem (List.not_mem_nil em)

theorem addDynamicConfig_no_tokens (env : DiscoveryEnv) (ls : LoadState) :
    ∀ (cys : List Config) (dcs : DCMap) (tc : Container) (insp : ContainerJSON)
      (key path : Str) (ems : List Emission),
      addDynamicConfig env ls cys dcs tc insp key path = Except.ok ems →
      ∀ em ∈ ems, containsB em.text hostTok = false ∧
        containsB em.text ipTok = false ∧ containsB em.text portTok = false := by
  intro cys
  induction cys with
  | nil =>
    intro dcs tc insp key path ems h em hem
    injection h with h'
    rw [← h'] at hem
    exact absurd hem (List.not_mem_nil em)
  | cons cy rest ih =>
    intro dcs tc insp key path ems h em hem
    simp only [addDynamicConfig] at h
    split at h
    · cases h
    · rename_i ems1 heq1
      split at h
      · cases h
      · rename_i ems2 heq2
        injection h with h'
        rw [← h'] at hem
        rcases List.mem_append.mp hem with h1 | h2
        · exact adcOne_no_tokens _ _ _ _ _ _ _ _ _ heq1 em h1
        · exact ih _ _ _ _ _ _ heq2 em h2

theorem adcOne_port_empty (env : DiscoveryEnv) (ls : LoadState) (dcs : DCMap)
    (key : Str) (tc : Container) (insp : ContainerJSON) (path : Str)
    (cy : Config)
    (hp : dget dcs key (str "p") = none)
    (hports : tc.ports = [])
    (hlab : ∀ kv ∈ tc.labels, kv.1 ≠ kubePortsKey)
    (hexp : ∀ cfg, insp.config = some cfg → cfg.exposedPorts = [])
    (hread : ∀ b, env.readFile (path ++ cy.fileName) = some b →
      containsB b portTok = true) :
    adcOne env ls dcs key tc insp path cy = Except.ok [] := by
  have hport1 : ∀ (m : Str),
      (if m = loadPublic then ([] : Str)
        else if m = loadPrivate then [] else []) = [] := by
    intro m
    split
    · rfl
    · split <;> rfl
  simp only [adcOne, hp, hports]
  split
  · cases hrf : env.readFile (path ++ cy.fileName) with
    | none => rfl
    | some b =>
      have hb := hread b hrf
      simp only [hport1, portPhase_empty env insp tc.labels hlab hexp]
      exact adcFinish_port_in env tc _ (substHostIP_keeps _ b hb)
  · rfl

theorem addDynamicConfig_port_empty (env : DiscoveryEnv) (ls : LoadState) :
    ∀ (cys : List Config) (dcs : DCMap) (tc : Container) (insp : ContainerJSON)
      (key path : Str),
      dget dcs key (str "p") = none →
      tc.ports = [] →
      (∀ kv ∈ tc.labels, kv.1 ≠ kubePortsKey) →
      (∀ cfg, insp.config = some cfg → cfg.exposedPorts = []) →
      (∀ cy ∈ cys, ∀ b, env.readFile (path ++ cy.fileName) = some b →
        containsB b portTok = true) →
      addDynamicConfig env ls cys dcs tc insp key path = Except.ok [] := by
  intro cys
  induction cys with
  | nil =>
    intro dcs tc insp key path _ _ _ _ _
    rfl
  | cons cy rest ih =>
    intro dcs tc insp key path hp hports hlab hexp hread
    simp only [addDynamicConfig]
    rw [adcOne_port_empty env ls dcs key tc insp path cy hp hports hlab hexp
      (hread cy (List.mem_cons_self _ _))]
    rw [ih dcs tc insp key path hp hports hlab hexp
      (fun c hc => hread c (List.mem_cons_of_mem _ hc))]
    rfl

/-- C4: a Synthesized Configuration is appended only if the substituted
text contains none of the three placeholders `$\x7bauto:host\x7d`,
`$\x7bauto:ip\x7d`, `$\x7bauto:port\x7d`; and in particular, for
templates containing `$\x7bauto:port\x7d`, if every port source (the
`p` override, the port mappings, the orchestrator ports label and the
exposed-port set) leaves the port empty, `addDynamicConfig` emits
nothing for that Directive. -/
theorem C4_emission_guard :
    (∀ (env : DiscoveryEnv) (ls : LoadState) (cys : List Config) (dcs : DCMap)
      (tc : Container) (insp : ContainerJSON) (key path : Str)
      (ems : List Emission),
      addDynamicConfig env ls cys dcs tc insp key path = Except.ok ems →
      ∀ em ∈ ems, containsB em.text hostTok = false ∧
        containsB em.text ipTok = false ∧ containsB em.text portTok = false) ∧
    (∀ (env : DiscoveryEnv) (ls : LoadState) (cys : List Config) (dcs : DCMap)
      (tc : Container) (insp : ContainerJSON) (key path : Str),
      dget dcs key (str "p") = none →
      tc.ports = [] →
      (∀ kv ∈ tc.labels, kv.1 ≠ kubePortsKey) →
      (∀ cfg, insp.config = some cfg → cfg.exposedPorts = []) →
      (∀ cy ∈ cys, ∀ b, env.readFile (path ++ cy.fileName) = some b →
        containsB b portTok = true) →
      addDynamicConfig env ls cys dcs tc insp key path = Except.ok []) :=
  ⟨fun env ls cys dcs tc insp key path ems h =>
    addDynamicConfig_no_tokens env ls cys dcs tc insp key path ems h,
  fun env ls cys dcs tc insp key path hp hports hlab hexp hread =>
    addDynamicConfig_port_empty env ls cys dcs tc insp key path hp hports hlab
      hexp hread⟩

/-- C4 (witness): at the concrete emitting run the emitted text
`port: 6379` holds no placeholder; and with all port sources empty and a
template containing the port placeholder, nothing is emitted. -/
theorem C4_emission_guard_witness :
    (containsB (str "port: 6379") hostTok = false ∧
      containsB (str "port: 6379") ipTok = false ∧
      containsB (str "port: 6379") portTok = false) ∧
    addDynamicConfig
      ⟨some (), some [], fun _ => none,
        fun _ => some (str "port: $\x7bauto:port\x7d"),
        fun _ => some ⟨str "redis.yml", none⟩,
        fun _ => none, fun _ => none, fun _ => none⟩
      ⟨[], str "private", [], str "nri-flex", str "flex"⟩
      [⟨str "redis.yml", none⟩]
      [(str "flexDiscoveryRedis",
        [(str "t", str "redis"), (str "c", str "redis"), (str "tt", str "img"),
          (str "tm", str "contains")])]
      ⟨str "abcdefabcdef", [str "/redis1"], str "redis:6.2", [],
        [str "172.17.0.5"], []⟩
      ⟨str "abcdefabcdef", 42, some ⟨[], [], []⟩⟩
      (str "flexDiscoveryRedis") (str "conf/") = Except.ok [] :=
  ⟨C4_emission_guard.1
      ⟨some (), some [], fun _ => none,
        fun f => if f = str "conf/redis.yml"
          then some (str "port: $\x7bauto:port\x7d") else none,
        fun _ => some ⟨str "redis.yml", none⟩,
        fun _ => none, fun _ => none, fun _ => none⟩
      ⟨[], str "private", [], str "nri-flex", str "flex"⟩
      [⟨str "redis.yml", none⟩]
      [(str "flexDiscoveryRedis",
        [(str "t", str "redis"), (str "c", str "redis"), (str "tt", str "img"),
          (str "tm", str "contains"), (str "p", str "8080")])]
      ⟨str "abcdefabcdef", [str "/redis1"], str "redis:6.2", [],
        [str "172.17.0.5"], []⟩
      ⟨str "abcdefabcdef", 42, some ⟨[], [], [str "6379"]⟩⟩
      (str "flexDiscoveryRedis") (str "conf/")
      [⟨str "port: 6379",
        ⟨str "redis.yml",
          some [(str "containerID", str "abcdefabcdef"),
            (str "image", str "redis:6.2"),
            (str "IDShort", str "abcdefabcdef")]⟩⟩]
      (by decide)
      ⟨str "port: 6379",
        ⟨str "redis.yml",
          some [(str "containerID", str "abcdefabcdef"),
            (str "image", str "redis:6.2"),
            (str "IDShort", str "abcdefabcdef")]⟩⟩
      (by decide),
  C4_emission_guard.2 _ _ _ _ _ _ _ _ (by decide) (by decide) (by decide)
    (by rintro cfg h; cases h; rfl)
    (by
      rintro cy hcy b hb
      injection hb with h
      rw [← h]
      decide)⟩

/-- C8 (witness): the amended statement at the concrete containers of
the counterexample, in both enumeration orders. -/
theorem C8_first_processed_wins_witness :
    findFlexContainerID ⟨[], str "private", [], str "nri-flex", str "flex"⟩
      [⟨str "aaaaaaaaaaaa", [str "/svc1"], str "example/nri-flex:latest",
        [], [], []⟩,
        ⟨str "bbbbbbbbbbbb", [str "/my-flex"], str "redis:6", [], [], []⟩] =
      str "aaaaaaaaaaaa" ∧
    findFlexContainerID ⟨[], str "private", [], str "nri-flex", str "flex"⟩
      [⟨str "bbbbbbbbbbbb", [str "/my-flex"], str "redis:6", [], [], []⟩,
        ⟨str "aaaaaaaaaaaa", [str "/svc1"], str "example/nri-flex:latest",
          [], [], []⟩] = str "bbbbbbbbbbbb" :=
  C8_first_processed_wins _ _ _ (by decide) (by decide) (by decide) (by decide)
    (by decide) (by decide)

end NriFlex
